import Mathlib

/-
Verification of the USB Test Mode subsystem of lib_xud.

The repository source under src contains a single file, the header
src/lib_xud/src/core/XUD_TestMode.h, which declares the four test-mode
handlers and two assembly helpers.  The dispatcher and the handler bodies
are not present under src, so the behavioural model below is built from
the specification (sections 3 to 8), while the interface facts are
transcribed directly from the header.
-/

namespace XUDTestMode

/-- Modelled from the spec: the resolved test selector handed to the
Dispatcher (spec section 3).  The handler bodies and the dispatcher are
missing from src (only XUD_TestMode.h is present), so the selector
enumeration follows the spec: four recognized variants plus an
Unsupported catch-all. -/
inductive TestSelector
  | TestJ
  | TestK
  | TestSE0NAK
  | TestPacket
  | Unsupported
  deriving DecidableEq

/-- Modelled from the spec: the result of a dispatch attempt
(spec section 3): Entered or Rejected, nothing else. -/
inductive TestOutcome
  | Entered
  | Rejected
  deriving DecidableEq

/-- Modelled from the spec: bus line states J, K, SE0, Idle
(spec section 3). -/
inductive BusLineState
  | J
  | K
  | SE0
  | Idle
  deriving DecidableEq

/-- Modelled from the spec: the outbound physical-layer primitives of
spec section 6: force-line-state, transmit-raw-bits, transmit-NAK-handshake,
receive-next-token. -/
inductive PhyCall
  | forceLineState (s : BusLineState)
  | transmitRawBits (buf : List Nat)
  | transmitNAK
  | receiveToken
  deriving DecidableEq

/-- Modelled from the spec: environment events driving a handler once it
owns the bus.  tick is the passage of an observation interval with no
token; token is the arrival of an OUT/IN token from the host
(spec sections 4.4 and 8). -/
inductive BusEvent
  | tick
  | token
  deriving DecidableEq

/-- Modelled from the spec: the TestPacketBuffer (spec section 3), the
fixed 53-byte test packet mandated by the USB 2.0 specification's
test-packet annex; the pattern generator is missing from src. -/
def testPacketBuffer : List Nat :=
  [0x00, 0x00, 0x00, 0x00, 0x00, 0x00, 0x00, 0x00, 0x00,
   0xaa, 0xaa, 0xaa, 0xaa, 0xaa, 0xaa, 0xaa, 0xaa,
   0xee, 0xee, 0xee, 0xee, 0xee, 0xee, 0xee, 0xee,
   0xfe,
   0xff, 0xff, 0xff, 0xff, 0xff, 0xff, 0xff, 0xff, 0xff, 0xff, 0xff,
   0x7f, 0xbf, 0xdf, 0xef, 0xf7, 0xfb, 0xfd,
   0xfc, 0x7e, 0xbf, 0xdf, 0xef, 0xf7, 0xfb, 0xfd, 0x7e]

/-- Modelled from the spec: the control state of the subsystem after a
dispatch.  holdJ and holdK are the Test_J / Test_K hold loops, forcingSE0
and awaitingToken are the two states of the Test_SE0_NAK machine
(spec section 4.4), packetLoop is the Test_Packet transmission loop, and
rejectedIdle means control was returned to the protocol engine (reject
path only: no handler was entered). -/
inductive HState
  | holdJ
  | holdK
  | forcingSE0
  | awaitingToken
  | packetLoop
  | rejectedIdle
  deriving DecidableEq

/-- Modelled from the spec: a configuration of the subsystem together
with the simulated physical layer: the control state, the line state
last commanded on the bus, and the ordered log of physical-layer calls
issued so far. -/
structure ModeState where
  st : HState
  line : BusLineState
  log : List PhyCall
  deriving DecidableEq

/-- Modelled from the spec: the Test Mode Dispatcher (spec section 4.1,
missing from src).  It validates the selector before any side effect:
for a recognized variant it enters the corresponding handler, whose
first action forces the mandated line state (none for Test_Packet,
which starts transmitting); for Unsupported it returns Rejected with
the bus untouched. -/
def dispatch : TestSelector → TestOutcome × ModeState
  | .TestJ => (.Entered, ⟨.holdJ, .J, [.forceLineState .J]⟩)
  | .TestK => (.Entered, ⟨.holdK, .K, [.forceLineState .K]⟩)
  | .TestSE0NAK => (.Entered, ⟨.forcingSE0, .SE0, [.forceLineState .SE0]⟩)
  | .TestPacket => (.Entered, ⟨.packetLoop, .Idle, []⟩)
  | .Unsupported => (.Rejected, ⟨.rejectedIdle, .Idle, []⟩)

/-- Modelled from the spec: one reaction of the subsystem to a bus event
(handler bodies missing from src).  Test_J / Test_K hold their line and
perform no further protocol activity (spec sections 4.2, 4.3);
Test_Packet retransmits the fixed buffer every interval (spec 4.5);
the Test_SE0_NAK machine moves forcingSE0 to awaitingToken when a token
arrives and moves awaitingToken back to forcingSE0 immediately after
transmitting the NAK handshake and re-forcing SE0 (spec 4.4). -/
def step (s : ModeState) (e : BusEvent) : ModeState :=
  match s.st, e with
  | .holdJ, _ => s
  | .holdK, _ => s
  | .packetLoop, _ => { s with log := s.log ++ [.transmitRawBits testPacketBuffer] }
  | .forcingSE0, .tick => s
  | .forcingSE0, .token =>
      { s with st := .awaitingToken, log := s.log ++ [.receiveToken] }
  | .awaitingToken, _ =>
      { st := .forcingSE0, line := .SE0,
        log := s.log ++ [.transmitNAK, .forceLineState .SE0] }
  | .rejectedIdle, _ => s

/-- Run the subsystem from a configuration through a list of bus events. -/
def run (s : ModeState) : List BusEvent → ModeState
  | [] => s
  | e :: es => run (step s e) es

/-- Observed line state after each event of a simulated session. -/
def lineTrace (s : ModeState) : List BusEvent → List BusLineState
  | [] => []
  | e :: es => (step s e).line :: lineTrace (step s e) es

/-- The full observed line-state trace of one dispatch session: the line
state right after dispatch, then after every subsequent event. -/
def sessionLineTrace (sel : TestSelector) (es : List BusEvent) : List BusLineState :=
  (dispatch sel).2.line :: lineTrace (dispatch sel).2 es

/-- Which handler owns a control state (none on the reject path, where
control is back at the protocol engine). -/
def ownerOf : HState → Option TestSelector
  | .holdJ => some .TestJ
  | .holdK => some .TestK
  | .forcingSE0 => some .TestSE0NAK
  | .awaitingToken => some .TestSE0NAK
  | .packetLoop => some .TestPacket
  | .rejectedIdle => none

/-- The physical-layer call signature of each handler: which calls belong
to that handler's contract (spec sections 4.2 to 4.5). -/
def callAllowed : TestSelector → PhyCall → Bool
  | .TestJ, .forceLineState .J => true
  | .TestK, .forceLineState .K => true
  | .TestSE0NAK, .forceLineState .SE0 => true
  | .TestSE0NAK, .receiveToken => true
  | .TestSE0NAK, .transmitNAK => true
  | .TestPacket, .transmitRawBits b => decide (b = testPacketBuffer)
  | _, _ => false

/-- The buffers handed to transmit-raw-bits, in order, in a call log. -/
def transmittedBuffers : List PhyCall → List (List Nat)
  | [] => []
  | .transmitRawBits b :: rest => b :: transmittedBuffers rest
  | _ :: rest => transmittedBuffers rest

/-- The configuration right after dispatching TestSE0NAK. -/
def se0nakInit : ModeState := (dispatch .TestSE0NAK).2

/-- One full token service of the SE0/NAK machine: a token arrives
(forcingSE0 to awaitingToken), then the NAK response fires
(awaitingToken back to forcingSE0). -/
def se0nakServe (s : ModeState) : ModeState := step (step s .token) .tick

/-- The SE0/NAK session after n incoming tokens have been served. -/
def se0nakSession : Nat → ModeState
  | 0 => se0nakInit
  | n + 1 => se0nakServe (se0nakSession n)

/-- The calls issued while serving one token: receive it, NAK it,
re-force SE0. -/
def se0nakBlock : List PhyCall :=
  [.receiveToken, .transmitNAK, .forceLineState .SE0]

/-- Expected call log of the SE0/NAK handler after n tokens. -/
def se0nakLog : Nat → List PhyCall
  | 0 => [.forceLineState .SE0]
  | n + 1 => se0nakLog n ++ se0nakBlock

/-- Checks that every NAK handshake in a call log was preceded by a
force of SE0 issued since the previous NAK.  The Boolean argument says
whether SE0 has been forced since the last NAK (armed). -/
def nakOk : Bool → List PhyCall → Bool
  | _, [] => true
  | _, .forceLineState .SE0 :: rest => nakOk true rest
  | armed, .transmitNAK :: rest => armed && nakOk false rest
  | armed, _ :: rest => nakOk armed rest

/-- The armed flag of nakOk after scanning a call log. -/
def armedAfter : Bool → List PhyCall → Bool
  | a, [] => a
  | _, .forceLineState .SE0 :: rest => armedAfter true rest
  | _, .transmitNAK :: rest => armedAfter false rest
  | a, _ :: rest => armedAfter a rest

/-- C return types occurring in XUD_TestMode.h. -/
inductive CType
  | cVoid
  | cInt
  | cUnsigned
  deriving DecidableEq

/-- Whether a C return type carries a value back to the caller. -/
def returnsValue : CType → Bool
  | .cVoid => false
  | .cInt => true
  | .cUnsigned => true

/-- A C function declaration: name, parameter types, return type. -/
structure CFunDecl where
  name : String
  params : List CType
  ret : CType
  deriving DecidableEq

/-- The function declarations of src/lib_xud/src/core/XUD_TestMode.h
(lines 10 to 16), transcribed in order. -/
def xudTestModeHeader : List CFunDecl :=
  [⟨"UsbTestModeHandler_asm", [], .cUnsigned⟩,
   ⟨"XUD_UsbTestSE0", [], .cUnsigned⟩,
   ⟨"XUD_TestMode_TestJ", [], .cInt⟩,
   ⟨"XUD_TestMode_TestK", [], .cInt⟩,
   ⟨"XUD_TestMode_TestSE0NAK", [], .cInt⟩,
   ⟨"XUD_TestMode_TestPacket", [], .cInt⟩]

/-- Stepping never changes which handler owns control. -/
theorem ownerOf_step (s : ModeState) (e : BusEvent) :
    ownerOf (step s e).st = ownerOf s.st := by
  obtain ⟨hs, l, g⟩ := s
  cases hs <;> cases e <;> rfl

/-- Running never changes which handler owns control. -/
theorem ownerOf_run (es : List BusEvent) (s : ModeState) :
    ownerOf (run s es).st = ownerOf s.st := by
  induction es generalizing s with
  | nil => rfl
  | cons e es ih => rw [run, ih, ownerOf_step]

/-- One step only issues calls from the owning handler's signature. -/
theorem step_log_allowed (sel : TestSelector) (s : ModeState) (e : BusEvent)
    (hown : ownerOf s.st = some sel)
    (hall : s.log.all (callAllowed sel) = true) :
    (step s e).log.all (callAllowed sel) = true := by
  obtain ⟨hs, l, g⟩ := s
  cases hs <;> cases e <;>
    simp only [ownerOf, Option.some.injEq] at hown <;>
    first
      | exact hall
      | (subst hown; simp_all [step, List.all_append, callAllowed])

/-- A whole run only issues calls from the owning handler's signature. -/
theorem run_log_allowed (sel : TestSelector) (es : List BusEvent) (s : ModeState)
    (hown : ownerOf s.st = some sel)
    (hall : s.log.all (callAllowed sel) = true) :
    (run s es).log.all (callAllowed sel) = true := by
  induction es generalizing s with
  | nil => exact hall
  | cons e es ih =>
      rw [run]
      exact ih (step s e) (by rw [ownerOf_step]; exact hown)
        (step_log_allowed sel s e hown hall)

/-- The Test_J hold loop never changes the configuration. -/
theorem run_holdJ (es : List BusEvent) (l : BusLineState) (g : List PhyCall) :
    run ⟨.holdJ, l, g⟩ es = ⟨.holdJ, l, g⟩ := by
  induction es with
  | nil => rfl
  | cons e es ih => cases e <;> exact ih

/-- The Test_K hold loop never changes the configuration. -/
theorem run_holdK (es : List BusEvent) (l : BusLineState) (g : List PhyCall) :
    run ⟨.holdK, l, g⟩ es = ⟨.holdK, l, g⟩ := by
  induction es with
  | nil => rfl
  | cons e es ih => cases e <;> exact ih

/-- A hold loop observes its held line state at every tick. -/
theorem lineTrace_holdJ (es : List BusEvent) (l : BusLineState) (g : List PhyCall) :
    lineTrace ⟨.holdJ, l, g⟩ es = List.replicate es.length l := by
  induction es with
  | nil => rfl
  | cons e es ih =>
      cases e <;> simp only [lineTrace, step, List.length_cons, List.replicate_succ] <;>
        exact congrArg (l :: ·) ih

/-- The Test_K hold loop observes its held line state at every tick. -/
theorem lineTrace_holdK (es : List BusEvent) (l : BusLineState) (g : List PhyCall) :
    lineTrace ⟨.holdK, l, g⟩ es = List.replicate es.length l := by
  induction es with
  | nil => rfl
  | cons e es ih =>
      cases e <;> simp only [lineTrace, step, List.length_cons, List.replicate_succ] <;>
        exact congrArg (l :: ·) ih

/-- The Test_Packet loop transmits the fixed buffer once per event. -/
theorem run_packetLoop (es : List BusEvent) (l : BusLineState) (g : List PhyCall) :
    run ⟨.packetLoop, l, g⟩ es =
      ⟨.packetLoop, l,
        g ++ List.replicate es.length (.transmitRawBits testPacketBuffer)⟩ := by
  induction es generalizing g with
  | nil => simp [run]
  | cons e es ih =>
      have hstep : step ⟨.packetLoop, l, g⟩ e =
          ⟨.packetLoop, l, g ++ [.transmitRawBits testPacketBuffer]⟩ := by
        cases e <;> rfl
      rw [run, hstep, ih, List.append_assoc, List.length_cons, List.replicate_succ]
      rfl

/-- transmittedBuffers distributes over list append. -/
theorem transmittedBuffers_append (xs ys : List PhyCall) :
    transmittedBuffers (xs ++ ys) =
      transmittedBuffers xs ++ transmittedBuffers ys := by
  induction xs with
  | nil => rfl
  | cons c xs ih => cases c <;> simp [transmittedBuffers, ih]

/-- transmittedBuffers of a replicated raw-bits call. -/
theorem transmittedBuffers_replicate (n : Nat) (b : List Nat) :
    transmittedBuffers (List.replicate n (.transmitRawBits b)) =
      List.replicate n b := by
  induction n with
  | zero => rfl
  | succ n ih => simp [List.replicate_succ, transmittedBuffers, ih]

/-- Shape of the SE0/NAK session after n served tokens: back in the
forcingSE0 state, line at SE0, log exactly the expected one. -/
theorem se0nakSession_shape (n : Nat) :
    se0nakSession n = ⟨.forcingSE0, .SE0, se0nakLog n⟩ := by
  induction n with
  | zero => rfl
  | succ n ih =>
      show se0nakServe (se0nakSession n) = _
      rw [ih]
      show (⟨.forcingSE0, .SE0,
        (se0nakLog n ++ [.receiveToken]) ++
          [.transmitNAK, .forceLineState .SE0]⟩ : ModeState) = _
      rw [List.append_assoc]
      rfl

/-- The expected SE0/NAK log holds exactly n NAK handshakes. -/
theorem se0nakLog_count (n : Nat) :
    (se0nakLog n).count PhyCall.transmitNAK = n := by
  induction n with
  | zero => rfl
  | succ n ih =>
      rw [se0nakLog, List.count_append, ih]
      rfl

/-- The armed flag after scanning concatenated logs. -/
theorem armedAfter_append (xs ys : List PhyCall) (a : Bool) :
    armedAfter a (xs ++ ys) = armedAfter (armedAfter a xs) ys := by
  induction xs generalizing a with
  | nil => rfl
  | cons c xs ih =>
      cases c with
      | forceLineState s => cases s <;> simp [armedAfter, ih]
      | transmitRawBits b => simp [armedAfter, ih]
      | transmitNAK => simp [armedAfter, ih]
      | receiveToken => simp [armedAfter, ih]

/-- nakOk splits over concatenated logs through the armed flag. -/
theorem nakOk_append (xs ys : List PhyCall) (a : Bool) :
    nakOk a (xs ++ ys) = (nakOk a xs && nakOk (armedAfter a xs) ys) := by
  induction xs generalizing a with
  | nil => simp [nakOk, armedAfter]
  | cons c xs ih =>
      cases c with
      | forceLineState s => cases s <;> simp [nakOk, armedAfter, ih]
      | transmitRawBits b => simp [nakOk, armedAfter, ih]
      | transmitNAK => simp [nakOk, armedAfter, ih, Bool.and_assoc]
      | receiveToken => simp [nakOk, armedAfter, ih]

/-- After the expected SE0/NAK log, SE0 has just been forced again. -/
theorem armedAfter_se0nakLog (n : Nat) :
    armedAfter false (se0nakLog n) = true := by
  induction n with
  | zero => rfl
  | succ n ih => rw [se0nakLog, armedAfter_append, ih]; rfl

/-- In the expected SE0/NAK log, every NAK handshake is preceded by a
force of SE0 issued since the previous NAK. -/
theorem nakOk_se0nakLog (n : Nat) :
    nakOk false (se0nakLog n) = true := by
  induction n with
  | zero => rfl
  | succ n ih =>
      rw [se0nakLog, nakOk_append, ih, armedAfter_se0nakLog]
      rfl

/-- A control state owned by TestSE0NAK is one of the two machine states. -/
theorem owner_se0nak_cases (hs : HState)
    (h : ownerOf hs = some TestSelector.TestSE0NAK) :
    hs = HState.forcingSE0 ∨ hs = HState.awaitingToken := by
  cases hs <;> simp_all [ownerOf]

/-- Claim C1: for every dispatch call whose selector lies outside the four
recognized variants, the Dispatcher returns Rejected immediately, issues
zero physical-layer calls, the bus line state is untouched (still Idle),
and no handler is entered: selector validation precedes any side effect. -/
theorem dispatch_unsupported_rejected_no_side_effects (sel : TestSelector)
    (h1 : sel ≠ .TestJ) (h2 : sel ≠ .TestK)
    (h3 : sel ≠ .TestSE0NAK) (h4 : sel ≠ .TestPacket) :
    (dispatch sel).1 = .Rejected ∧ (dispatch sel).2.log = [] ∧
      (dispatch sel).2.line = .Idle ∧ (dispatch sel).2.st = .rejectedIdle := by
  cases sel <;> simp_all [dispatch]

/-- Witness for C1 at the concrete selector Unsupported. -/
theorem dispatch_unsupported_rejected_no_side_effects_witness :
    (TestSelector.Unsupported ≠ TestSelector.TestJ ∧
      TestSelector.Unsupported ≠ TestSelector.TestK ∧
      TestSelector.Unsupported ≠ TestSelector.TestSE0NAK ∧
      TestSelector.Unsupported ≠ TestSelector.TestPacket) ∧
    ((dispatch .Unsupported).1 = .Rejected ∧
      (dispatch .Unsupported).2.log = [] ∧
      (dispatch .Unsupported).2.line = .Idle ∧
      (dispatch .Unsupported).2.st = .rejectedIdle) :=
  ⟨⟨by decide, by decide, by decide, by decide⟩,
    dispatch_unsupported_rejected_no_side_effects .Unsupported
      (by decide) (by decide) (by decide) (by decide)⟩

/-- Claim C2: for every recognized selector the Dispatcher returns Entered
having transferred control to exactly the corresponding handler; along
every subsequent event sequence control still belongs to that same
handler (the Dispatcher never returns while the handler logically
continues), and every physical-layer call in the log belongs to that
handler's signature and to no other handler's. -/
theorem dispatch_recognized_enters_handler (sel : TestSelector)
    (es : List BusEvent) (h : sel ≠ .Unsupported) :
    (dispatch sel).1 = .Entered ∧
      ownerOf (run (dispatch sel).2 es).st = some sel ∧
      (run (dispatch sel).2 es).log.all (callAllowed sel) = true := by
  refine ⟨?_, ?_, ?_⟩
  · cases sel <;> first | rfl | exact absurd rfl h
  · rw [ownerOf_run]
    cases sel <;> first | rfl | exact absurd rfl h
  · refine run_log_allowed sel es (dispatch sel).2 ?_ ?_ <;>
      cases sel <;> first | decide | exact absurd rfl h

/-- Witness for C2 at the concrete selector TestSE0NAK with a two-event
session. -/
theorem dispatch_recognized_enters_handler_witness :
    TestSelector.TestSE0NAK ≠ TestSelector.Unsupported ∧
    ((dispatch .TestSE0NAK).1 = .Entered ∧
      ownerOf (run (dispatch .TestSE0NAK).2 [.token, .tick]).st =
        some .TestSE0NAK ∧
      (run (dispatch .TestSE0NAK).2 [.token, .tick]).log.all
        (callAllowed .TestSE0NAK) = true) :=
  ⟨by decide,
    dispatch_recognized_enters_handler .TestSE0NAK [.token, .tick] (by decide)⟩

/-- Claim C4: once the Test_J handler (resp. Test_K) is entered, the
observed line state is J (resp. K) on every subsequent observation, the
full observed trace is constantly J (resp. K), and the call log never
grows past the single initial force: no further protocol activity, no
reversion to Idle, never the opposite state. -/
theorem testJ_testK_hold_line_forever (es : List BusEvent) :
    (run (dispatch .TestJ).2 es).line = .J ∧
      (run (dispatch .TestJ).2 es).log = [.forceLineState .J] ∧
      sessionLineTrace .TestJ es = List.replicate (es.length + 1) .J ∧
      (run (dispatch .TestK).2 es).line = .K ∧
      (run (dispatch .TestK).2 es).log = [.forceLineState .K] ∧
      sessionLineTrace .TestK es = List.replicate (es.length + 1) .K := by
  have hJ := run_holdJ es .J [.forceLineState .J]
  have hK := run_holdK es .K [.forceLineState .K]
  refine ⟨?_, ?_, ?_, ?_, ?_, ?_⟩
  · show (run ⟨.holdJ, .J, [.forceLineState .J]⟩ es).line = .J
    rw [hJ]
  · show (run ⟨.holdJ, .J, [.forceLineState .J]⟩ es).log = _
    rw [hJ]
  · show BusLineState.J :: lineTrace ⟨.holdJ, .J, [.forceLineState .J]⟩ es = _
    rw [lineTrace_holdJ, List.replicate_succ]
  · show (run ⟨.holdK, .K, [.forceLineState .K]⟩ es).line = .K
    rw [hK]
  · show (run ⟨.holdK, .K, [.forceLineState .K]⟩ es).log = _
    rw [hK]
  · show BusLineState.K :: lineTrace ⟨.holdK, .K, [.forceLineState .K]⟩ es = _
    rw [lineTrace_holdK, List.replicate_succ]

/-- Claim C3: the Test_SE0_NAK handler is a two-state machine with exactly
the transitions of the spec: in forcingSE0 a tick leaves the
configuration unchanged (SE0 keeps being forced) and an incoming token
moves it to awaitingToken after the receive call; in awaitingToken the
next step, whatever the event, transmits the NAK handshake, re-forces
SE0 and returns to forcingSE0.  After any number n of served tokens the
log carries exactly n NAK handshakes, each preceded by a fresh SE0
force, and the machine sits in forcingSE0 with the line at SE0 between
tokens; along every event sequence the machine stays in one of its two
states, so no terminal state is reachable without external reset. -/
theorem se0nak_two_state_machine_behavior (l : BusLineState)
    (g : List PhyCall) (e : BusEvent) (n : Nat) (es : List BusEvent) :
    step ⟨.forcingSE0, l, g⟩ .tick = ⟨.forcingSE0, l, g⟩ ∧
      step ⟨.forcingSE0, l, g⟩ .token =
        ⟨.awaitingToken, l, g ++ [.receiveToken]⟩ ∧
      step ⟨.awaitingToken, l, g⟩ e =
        ⟨.forcingSE0, .SE0, g ++ [.transmitNAK, .forceLineState .SE0]⟩ ∧
      (se0nakSession n).log.count PhyCall.transmitNAK = n ∧
      nakOk false (se0nakSession n).log = true ∧
      (se0nakSession n).st = .forcingSE0 ∧
      (se0nakSession n).line = .SE0 ∧
      ((run se0nakInit es).st = .forcingSE0 ∨
        (run se0nakInit es).st = .awaitingToken) := by
  refine ⟨rfl, rfl, by cases e <;> rfl, ?_, ?_, ?_, ?_, ?_⟩
  · rw [se0nakSession_shape]
    exact se0nakLog_count n
  · rw [se0nakSession_shape]
    exact nakOk_se0nakLog n
  · rw [se0nakSession_shape]
  · rw [se0nakSession_shape]
  · exact owner_se0nak_cases (run se0nakInit es).st
      (by rw [ownerOf_run]; rfl)

/-- Claim C5: for every repetition of the Test_Packet transmission loop
the transmitted buffer is byte-identical to the single fixed pattern
testPacketBuffer (one transmission per observed interval, all equal to
the one constant constructed once), and that pattern has the mandated
53-byte length. -/
theorem testPacket_repeats_fixed_buffer (es : List BusEvent) :
    transmittedBuffers (run (dispatch .TestPacket).2 es).log =
      List.replicate es.length testPacketBuffer ∧
      (transmittedBuffers (run (dispatch .TestPacket).2 es).log).all
        (fun b => decide (b = testPacketBuffer)) = true ∧
      testPacketBuffer.length = 53 := by
  have hrun : run (dispatch .TestPacket).2 es =
      ⟨.packetLoop, .Idle,
        List.replicate es.length (.transmitRawBits testPacketBuffer)⟩ := by
    show run ⟨.packetLoop, .Idle, []⟩ es = _
    rw [run_packetLoop]
    rfl
  have hbuf : transmittedBuffers (run (dispatch .TestPacket).2 es).log =
      List.replicate es.length testPacketBuffer := by
    rw [hrun]
    exact transmittedBuffers_replicate es.length testPacketBuffer
  refine ⟨hbuf, ?_, by rfl⟩
  rw [hbuf]
  simp [List.all_eq_true]

/-- Claim C6: every dispatch attempt produces exactly one of the two
outcomes Entered or Rejected, with no partial outcome: Rejected happens
precisely on the Unsupported selector, Entered precisely when a handler
owning the selector has taken control, and the owning handler never
changes along any subsequent event sequence, so entering a test mode is
an irreversible, blocking transition for the process's lifetime. -/
theorem dispatch_outcome_total_and_irreversible (sel : TestSelector)
    (es : List BusEvent) :
    ((dispatch sel).1 = .Entered ∨ (dispatch sel).1 = .Rejected) ∧
      ((dispatch sel).1 = .Rejected ↔ sel = .Unsupported) ∧
      ((dispatch sel).1 = .Entered ↔ ownerOf (dispatch sel).2.st = some sel) ∧
      ownerOf (run (dispatch sel).2 es).st = ownerOf (dispatch sel).2.st := by
  refine ⟨?_, ?_, ?_, ownerOf_run es (dispatch sel).2⟩ <;> cases sel <;> simp [dispatch, ownerOf]

/-- Claim C7: dispatching TestJ is deterministic across runs: two
invocations from a reset state, observed for sessions of equal length,
yield identical line-state traces (the trace does not even depend on
the event schedule, only on its length). -/
theorem testJ_dispatch_deterministic_trace (es1 es2 : List BusEvent)
    (h : es1.length = es2.length) :
    sessionLineTrace .TestJ es1 = sessionLineTrace .TestJ es2 := by
  have htr : ∀ es : List BusEvent, sessionLineTrace .TestJ es =
      List.replicate (es.length + 1) BusLineState.J := by
    intro es
    show BusLineState.J :: lineTrace ⟨.holdJ, .J, [.forceLineState .J]⟩ es = _
    rw [lineTrace_holdJ, List.replicate_succ]
  rw [htr, htr, h]

/-- Witness for C7 on two distinct concrete schedules of equal length. -/
theorem testJ_dispatch_deterministic_trace_witness :
    ([BusEvent.tick, BusEvent.token].length =
        [BusEvent.token, BusEvent.tick].length) ∧
      sessionLineTrace .TestJ [BusEvent.tick, BusEvent.token] =
        sessionLineTrace .TestJ [BusEvent.token, BusEvent.tick] :=
  ⟨by decide,
    testJ_dispatch_deterministic_trace [BusEvent.tick, BusEvent.token]
      [BusEvent.token, BusEvent.tick] (by decide)⟩

/-- Claim C9: each of the four test-mode handlers is declared in
XUD_TestMode.h as a function taking no arguments and returning an int,
a value-bearing (non-void) return type, so the declared interface
admits an execution in which a handler returns control to its caller
with an integer result. -/
theorem header_handlers_declared_int_no_args :
    xudTestModeHeader[2]? = some ⟨"XUD_TestMode_TestJ", [], .cInt⟩ ∧
      xudTestModeHeader[3]? = some ⟨"XUD_TestMode_TestK", [], .cInt⟩ ∧
      xudTestModeHeader[4]? = some ⟨"XUD_TestMode_TestSE0NAK", [], .cInt⟩ ∧
      xudTestModeHeader[5]? = some ⟨"XUD_TestMode_TestPacket", [], .cInt⟩ ∧
      returnsValue .cInt = true :=
  ⟨rfl, rfl, rfl, rfl, rfl⟩

/-- Claim C10: the two SE0/NAK helper primitives are declared in
XUD_TestMode.h as functions taking no arguments and returning an
unsigned value, a value-bearing (non-void) return type: as declared,
the blocking token-wait step is a call that can complete and hand an
unsigned result back to its caller. -/
theorem header_helpers_declared_unsigned_no_args :
    xudTestModeHeader[0]? = some ⟨"UsbTestModeHandler_asm", [], .cUnsigned⟩ ∧
      xudTestModeHeader[1]? = some ⟨"XUD_UsbTestSE0", [], .cUnsigned⟩ ∧
      returnsValue .cUnsigned = true :=
  ⟨rfl, rfl, rfl⟩

end XUDTestMode
